import Mathlib

/-!
Shallow embedding of `src/mod_notifier.py` (DayZ mod update notifier).

The program keeps a SQLite table `mod_updates(mod_id, last_updated, mod_name,
last_checked)`; one cycle (`DayZModNotifier.check_for_updates`) slices the
tracked id list into batches of 100, calls the Steam batch lookup once per
batch (`get_mod_info`, modelled as an opaque `Lookup` function: `none` is a
failed batch, i.e. `not mod_data or 'response' not in mod_data`), reconciles
each successful per-id result against the table, sleeps one second after each
successfully fetched batch, and returns the list of change events.  The
Discord notifier (`send_discord_notification`) builds at most one payload from
that list.  The SQLite table is modelled as a function `String → Option
ItemRecord`; `int(time.time())` during one cycle is the parameter `now`;
`time.sleep` calls and `get_mod_info` calls are counted in the cycle result.
-/

/-- Row of the `mod_updates` table (`mod_id` is the key, kept outside). -/
structure ItemRecord where
  last_updated : Nat
  mod_name : String
  last_checked : Nat
  deriving DecidableEq

/-- One per-id result object of the Steam batch lookup response:
`result` (success sentinel 1), `publishedfileid`, optional `title`,
optional `time_updated`. -/
structure FileDetails where
  result : Nat
  publishedfileid : String
  title : Option String
  time_updated : Option Nat
  deriving DecidableEq

/-- One entry of `updated_mods`: `{'id', 'name', 'updated', 'url'}`.  The
`updated` field holds the raw observed timestamp (the Python code stores its
`strftime` rendering, a deterministic function of this number). -/
structure ChangeEvent where
  id : String
  name : String
  updated : Nat
  url : String
  deriving DecidableEq

/-- The persisted state: the `mod_updates` table keyed by `mod_id`. -/
abbrev Store := String → Option ItemRecord

/-- `INSERT OR REPLACE` at one key: creates if absent, otherwise overwrites. -/
def Store.upsert (st : Store) (id : String) (r : ItemRecord) : Store :=
  fun k => if k = id then some r else st k

/-- The detail URL built from the id:
`https://steamcommunity.com/sharedfiles/filedetails/?id=<mod_id>`. -/
def detailUrl (mod_id : String) : String :=
  "https://steamcommunity.com/sharedfiles/filedetails/?id=" ++ mod_id

/-- `file_details.get('title', f'Mod {mod_id}')`. -/
def modName (fd : FileDetails) : String :=
  fd.title.getD ("Mod " ++ fd.publishedfileid)

/-- `file_details.get('time_updated', 0)`. -/
def modUpdated (fd : FileDetails) : Nat :=
  fd.time_updated.getD 0

/-- Whether a per-id result is a successful observation of `id`. -/
def hitsId (id : String) (fd : FileDetails) : Bool :=
  fd.result == 1 && fd.publishedfileid == id

/-- Body of the inner loop of `check_for_updates` for one `file_details`
object: skip non-success results, then insert / update+emit / touch according
to the stored `last_updated`.  The accumulator carries the table and the
`updated_mods` list built so far. -/
def processItem (now : Nat) (acc : Store × List ChangeEvent) (fd : FileDetails) :
    Store × List ChangeEvent :=
  if fd.result ≠ 1 then acc
  else
    match acc.1 fd.publishedfileid with
    | none =>
        (acc.1.upsert fd.publishedfileid ⟨modUpdated fd, modName fd, now⟩, acc.2)
    | some r =>
        if r.last_updated < modUpdated fd then
          (acc.1.upsert fd.publishedfileid ⟨modUpdated fd, modName fd, now⟩,
           acc.2 ++ [⟨fd.publishedfileid, modName fd, modUpdated fd,
                     detailUrl fd.publishedfileid⟩])
        else
          (acc.1.upsert fd.publishedfileid ⟨r.last_updated, r.mod_name, now⟩, acc.2)

/-- Reconciling a list of per-id results against a store, starting from an
empty event list. -/
def runItems (now : Nat) (st : Store) (fds : List FileDetails) :
    Store × List ChangeEvent :=
  fds.foldl (processItem now) (st, [])

/-- Fuelled batch slicing: `chunksFuel bs fuel l` mirrors
`for i in range(0, len(l), bs): l[i:i+bs]` as long as `fuel` bounds the
number of slices (`fuel = l.length` always suffices for `bs ≥ 1`). -/
def chunksFuel (bs : Nat) : Nat → List α → List (List α)
  | 0, _ => []
  | _ + 1, [] => []
  | fuel + 1, a :: l => (a :: l).take bs :: chunksFuel bs fuel ((a :: l).drop bs)

/-- The batches of one cycle: slices of size 100 (the Steam API limit),
`self.mod_ids[i:i + batch_size]` for `i in range(0, len, 100)`. -/
def makeBatches (l : List α) : List (List α) :=
  chunksFuel 100 l.length l

/-- The external batch lookup (`get_mod_info`): `none` models a batch whose
request failed or whose body lacks `'response'`. -/
abbrev Lookup := List String → Option (List FileDetails)

/-- Outcome of one `check_for_updates` cycle: the table, the returned
`updated_mods` list, the number of `time.sleep(1)` calls executed, and the
number of `get_mod_info` calls issued. -/
structure CycleResult where
  store : Store
  events : List ChangeEvent
  sleeps : Nat
  requests : Nat

/-- Body of the batch loop of `check_for_updates`: one `get_mod_info` call;
on failure `continue` (which also skips the `time.sleep(1)` at the end of the
loop body); on success reconcile every result object, then sleep. -/
def processBatch (lookup : Lookup) (now : Nat) (acc : CycleResult)
    (batch : List String) : CycleResult :=
  match lookup batch with
  | none => { acc with requests := acc.requests + 1 }
  | some fds =>
      let p := fds.foldl (processItem now) (acc.store, acc.events)
      { store := p.1, events := p.2, sleeps := acc.sleeps + 1,
        requests := acc.requests + 1 }

/-- `DayZModNotifier.check_for_updates`, one full cycle over a tracked id
list `mod_ids`, with the database in state `st` and `int(time.time()) = now`. -/
def check_for_updates (lookup : Lookup) (mod_ids : List String) (now : Nat)
    (st : Store) : CycleResult :=
  (makeBatches mod_ids).foldl (processBatch lookup now) ⟨st, [], 0, 0⟩

/-- All per-id result objects of the successful batches of one cycle, in
batch order then response order. -/
def successResults (lookup : Lookup) (mod_ids : List String) : List FileDetails :=
  ((makeBatches mod_ids).filterMap lookup).flatten

/-- Net effect of the reconciler on the record of an id that is observed
exactly once in a cycle, as a function of the stored record and the result
object (derived characterization, proved against `processItem`). -/
def itemOutcome (now : Nat) (cur : Option ItemRecord) (fd : FileDetails) :
    Option ItemRecord × List ChangeEvent :=
  match cur with
  | none => (some ⟨modUpdated fd, modName fd, now⟩, [])
  | some r =>
      if r.last_updated < modUpdated fd then
        (some ⟨modUpdated fd, modName fd, now⟩,
         [⟨fd.publishedfileid, modName fd, modUpdated fd,
           detailUrl fd.publishedfileid⟩])
      else
        (some ⟨r.last_updated, r.mod_name, now⟩, [])

/-- One `{name, value, inline}` field object of the Discord embed. -/
structure EmbedField where
  name : String
  value : String
  inl : Bool
  deriving DecidableEq

/-- The Discord embed object (the `timestamp` ISO rendering of the clock is
kept as the raw clock value). -/
structure DiscordEmbed where
  title : String
  description : String
  color : Nat
  timestamp : Nat
  footer : String
  fields : List EmbedField
  deriving DecidableEq

/-- The outbound webhook payload. -/
structure DiscordPayload where
  embeds : List DiscordEmbed
  content : String
  deriving DecidableEq

/-- Field appended for one of the first ten updated mods (`inline: True`). -/
def modField (m : ChangeEvent) : EmbedField :=
  ⟨"📦 " ++ m.name,
   "**Updated:** " ++ toString m.updated ++ "\n**ID:** `" ++ m.id ++
     "`\n[View on Workshop](" ++ m.url ++ ")",
   true⟩

/-- Synthetic summary field appended when more than ten mods updated. -/
def additionalField (k : Nat) : EmbedField :=
  ⟨"➕ Additional Updates", "And " ++ toString k ++ " more mods were updated.",
   false⟩

/-- Fixed advisory field always appended last. -/
def warningField : EmbedField :=
  ⟨"⚠️ Action Required",
   "Your GTX Gaming server may need to be restarted to apply these mod updates.",
   false⟩

/-- The `fields` list of the embed: first ten mods, then the optional
`N more` summary, then the advisory note. -/
def buildFields (updated_mods : List ChangeEvent) : List EmbedField :=
  (updated_mods.take 10).map modField ++
    (if 10 < updated_mods.length then [additionalField (updated_mods.length - 10)]
     else []) ++
    [warningField]

/-- `DayZModNotifier.send_discord_notification`: `none` means no webhook call
is made at all (`if not updated_mods: return`); otherwise exactly one payload
with a single embed is posted. -/
def send_discord_notification (now : Nat) (updated_mods : List ChangeEvent) :
    Option DiscordPayload :=
  if updated_mods.isEmpty then none
  else
    some ⟨[⟨"🔄 DayZ Server Mod Updates Detected!",
            "**" ++ toString updated_mods.length ++ " mod(s) have been updated**",
            0x00ff00, now, "GTX Gaming DayZ Server Monitor",
            buildFields updated_mods⟩],
          "@here Mod updates detected for DayZ server!"⟩

/-! Basic decomposition lemmas for the reconciliation fold. -/

/-- Processing one result object only appends to the event accumulator and its
store effect is independent of the events accumulated so far. -/
lemma processItem_shift (now : Nat) (acc : Store × List ChangeEvent)
    (fd : FileDetails) :
    processItem now acc fd =
      ((processItem now (acc.1, []) fd).1,
       acc.2 ++ (processItem now (acc.1, []) fd).2) := by
  by_cases h1 : fd.result = 1
  · cases hst : acc.1 fd.publishedfileid with
    | none => simp [processItem, h1, hst]
    | some r =>
        by_cases hlt : r.last_updated < modUpdated fd
        · simp [processItem, h1, hst, hlt]
        · simp [processItem, h1, hst, hlt]
  · simp [processItem, h1]

/-- The reconciliation fold from an arbitrary accumulator. -/
lemma runItems_shift (now : Nat) (fds : List FileDetails) :
    ∀ acc : Store × List ChangeEvent,
      fds.foldl (processItem now) acc =
        ((runItems now acc.1 fds).1, acc.2 ++ (runItems now acc.1 fds).2) := by
  induction fds with
  | nil => intro acc; simp [runItems]
  | cons fd fds ih =>
      intro acc
      rw [List.foldl_cons, processItem_shift, ih]
      have h2 : runItems now acc.1 (fd :: fds) =
          ((runItems now (processItem now (acc.1, []) fd).1 fds).1,
           (processItem now (acc.1, []) fd).2 ++
             (runItems now (processItem now (acc.1, []) fd).1 fds).2) := by
        show List.foldl (processItem now) (acc.1, []) (fd :: fds) = _
        rw [List.foldl_cons, ih]
      rw [h2]
      simp

/-- Unfolding one step of the reconciliation fold. -/
lemma runItems_cons (now : Nat) (st : Store) (fd : FileDetails)
    (fds : List FileDetails) :
    runItems now st (fd :: fds) =
      ((runItems now (processItem now (st, []) fd).1 fds).1,
       (processItem now (st, []) fd).2 ++
         (runItems now (processItem now (st, []) fd).1 fds).2) := by
  show List.foldl (processItem now) (st, []) (fd :: fds) = _
  rw [List.foldl_cons, runItems_shift]

/-- The reconciliation fold over a concatenation. -/
lemma runItems_append (now : Nat) (st : Store) (a b : List FileDetails) :
    runItems now st (a ++ b) =
      ((runItems now (runItems now st a).1 b).1,
       (runItems now st a).2 ++ (runItems now (runItems now st a).1 b).2) := by
  show List.foldl (processItem now) (st, []) (a ++ b) = _
  rw [List.foldl_append]
  have h1 : List.foldl (processItem now) (st, []) a = runItems now st a := rfl
  rw [h1, runItems_shift]

/-! Frame lemmas: results that are not a successful observation of `id`
leave the record of `id` alone and emit no event carrying `id`. -/

/-- A result that does not successfully observe `id` leaves the record of
`id` unchanged. -/
lemma processItem_store_miss (now : Nat) (acc : Store × List ChangeEvent)
    (fd : FileDetails) (id : String) (h : hitsId id fd = false) :
    (processItem now acc fd).1 id = acc.1 id := by
  by_cases h1 : fd.result = 1
  · have hne : fd.publishedfileid ≠ id := by
      intro he
      simp [hitsId, h1, he] at h
    cases hst : acc.1 fd.publishedfileid with
    | none => simp [processItem, h1, hst, Store.upsert, Ne.symm hne]
    | some r =>
        by_cases hlt : r.last_updated < modUpdated fd
        · simp [processItem, h1, hst, hlt, Store.upsert, Ne.symm hne]
        · simp [processItem, h1, hst, hlt, Store.upsert, Ne.symm hne]
  · simp [processItem, h1]

/-- A result that does not successfully observe `id` adds no event for `id`. -/
lemma processItem_events_miss (now : Nat) (acc : Store × List ChangeEvent)
    (fd : FileDetails) (id : String) (h : hitsId id fd = false) :
    (processItem now acc fd).2.filter (fun e => e.id == id) =
      acc.2.filter (fun e => e.id == id) := by
  by_cases h1 : fd.result = 1
  · have hne : fd.publishedfileid ≠ id := by
      intro he
      simp [hitsId, h1, he] at h
    cases hst : acc.1 fd.publishedfileid with
    | none => simp [processItem, h1, hst]
    | some r =>
        by_cases hlt : r.last_updated < modUpdated fd
        · simp [processItem, h1, hst, hlt, List.filter_append, hne]
        · simp [processItem, h1, hst, hlt]
  · simp [processItem, h1]

/-- Reconciling a list with no successful observation of `id` leaves the
record of `id` unchanged. -/
lemma runItems_store_frame (now : Nat) (id : String) :
    ∀ (fds : List FileDetails) (st : Store),
      (∀ fd ∈ fds, hitsId id fd = false) →
      (runItems now st fds).1 id = st id := by
  intro fds
  induction fds with
  | nil => intro st _; rfl
  | cons fd fds ih =>
      intro st h
      rw [runItems_cons]
      rw [ih _ (fun x hx => h x (List.mem_cons_of_mem _ hx))]
      exact processItem_store_miss now (st, []) fd id (h fd (List.mem_cons_self _ _))

/-- Reconciling a list with no successful observation of `id` emits no event
for `id`. -/
lemma runItems_events_frame (now : Nat) (id : String) :
    ∀ (fds : List FileDetails) (st : Store),
      (∀ fd ∈ fds, hitsId id fd = false) →
      (runItems now st fds).2.filter (fun e => e.id == id) = [] := by
  intro fds
  induction fds with
  | nil => intro st _; rfl
  | cons fd fds ih =>
      intro st h
      rw [runItems_cons]
      have h0 := processItem_events_miss now (st, []) fd id
        (h fd (List.mem_cons_self _ _))
      simp only [List.filter_append]
      rw [ih _ (fun x hx => h x (List.mem_cons_of_mem _ hx))]
      simp only [List.append_nil]
      simpa using h0

/-! Effect of the one result object that successfully observes `id`. -/

/-- On a successful observation of `id`, the new record of `id` is given by
`itemOutcome` applied to the stored record. -/
lemma processItem_hit_store (now : Nat) (st : Store) (fd : FileDetails)
    (id : String) (h : hitsId id fd = true) :
    (processItem now (st, ([] : List ChangeEvent)) fd).1 id =
      (itemOutcome now (st id) fd).1 := by
  have h' : fd.result = 1 ∧ fd.publishedfileid = id := by
    simpa [hitsId] using h
  obtain ⟨h1, hpid⟩ := h'
  subst hpid
  cases hst : st fd.publishedfileid with
  | none => simp [processItem, itemOutcome, h1, hst, Store.upsert]
  | some r =>
      by_cases hlt : r.last_updated < modUpdated fd
      · simp [processItem, itemOutcome, h1, hst, hlt, Store.upsert]
      · simp [processItem, itemOutcome, h1, hst, hlt, Store.upsert]

/-- On a successful observation of `id`, the events appended are given by
`itemOutcome` applied to the stored record. -/
lemma processItem_hit_events (now : Nat) (st : Store) (fd : FileDetails)
    (id : String) (h : hitsId id fd = true) :
    (processItem now (st, ([] : List ChangeEvent)) fd).2 =
      (itemOutcome now (st id) fd).2 := by
  have h' : fd.result = 1 ∧ fd.publishedfileid = id := by
    simpa [hitsId] using h
  obtain ⟨h1, hpid⟩ := h'
  subst hpid
  cases hst : st fd.publishedfileid with
  | none => simp [processItem, itemOutcome, h1, hst]
  | some r =>
      by_cases hlt : r.last_updated < modUpdated fd
      · simp [processItem, itemOutcome, h1, hst, hlt]
      · simp [processItem, itemOutcome, h1, hst, hlt]

/-- Every event produced by `itemOutcome` for a result observing `id`
carries exactly the id `id`. -/
lemma itemOutcome_events_filter (now : Nat) (cur : Option ItemRecord)
    (fd : FileDetails) (id : String) (hpid : fd.publishedfileid = id) :
    ((itemOutcome now cur fd).2).filter (fun e => e.id == id) =
      (itemOutcome now cur fd).2 := by
  cases cur with
  | none => rfl
  | some r =>
      by_cases hlt : r.last_updated < modUpdated fd
      · simp [itemOutcome, hlt, hpid]
      · simp [itemOutcome, hlt]

/-- In a cycle whose successful results observe `id` exactly once, the final
record of `id` is `itemOutcome` of the stored record and that observation. -/
lemma runItems_unique_store (now : Nat) (st : Store) (id : String)
    (pre post : List FileDetails) (fd0 : FileDetails)
    (hhit : hitsId id fd0 = true)
    (hpre : ∀ fd ∈ pre, hitsId id fd = false)
    (hpost : ∀ fd ∈ post, hitsId id fd = false) :
    (runItems now st (pre ++ fd0 :: post)).1 id =
      (itemOutcome now (st id) fd0).1 := by
  rw [runItems_append, runItems_cons]
  rw [runItems_store_frame now id post _ hpost]
  rw [processItem_hit_store now _ fd0 id hhit]
  rw [runItems_store_frame now id pre st hpre]

/-- In a cycle whose successful results observe `id` exactly once, the events
emitted for `id` are exactly `itemOutcome` of the stored record and that
observation. -/
lemma runItems_unique_events (now : Nat) (st : Store) (id : String)
    (pre post : List FileDetails) (fd0 : FileDetails)
    (hhit : hitsId id fd0 = true)
    (hpre : ∀ fd ∈ pre, hitsId id fd = false)
    (hpost : ∀ fd ∈ post, hitsId id fd = false) :
    (runItems now st (pre ++ fd0 :: post)).2.filter (fun e => e.id == id) =
      (itemOutcome now (st id) fd0).2 := by
  have hpid : fd0.publishedfileid = id := by
    have h' : fd0.result = 1 ∧ fd0.publishedfileid = id := by
      simpa [hitsId] using hhit
    exact h'.2
  rw [runItems_append, runItems_cons]
  simp only [List.filter_append]
  rw [runItems_events_frame now id pre st hpre]
  rw [runItems_events_frame now id post _ hpost]
  rw [processItem_hit_events now _ fd0 id hhit]
  rw [runItems_store_frame now id pre st hpre]
  rw [itemOutcome_events_filter now (st id) fd0 id hpid]
  simp

/-! Monotonicity of the stored `last_updated`, and coverage after a cycle. -/

/-- One reconciliation step never lowers the stored `last_updated` of any id. -/
lemma processItem_mono (now : Nat) (acc : Store × List ChangeEvent)
    (fd : FileDetails) (id : String) (r : ItemRecord) (h : acc.1 id = some r) :
    ∃ r', (processItem now acc fd).1 id = some r' ∧
      r.last_updated ≤ r'.last_updated := by
  by_cases h1 : fd.result = 1
  · by_cases hpid : fd.publishedfileid = id
    · subst hpid
      by_cases hlt : r.last_updated < modUpdated fd
      · exact ⟨⟨modUpdated fd, modName fd, now⟩,
          by simp [processItem, h1, h, hlt, Store.upsert], Nat.le_of_lt hlt⟩
      · exact ⟨⟨r.last_updated, r.mod_name, now⟩,
          by simp [processItem, h1, h, hlt, Store.upsert], Nat.le_refl _⟩
    · refine ⟨r, ?_, Nat.le_refl _⟩
      rw [processItem_store_miss now acc fd id (by simp [hitsId, hpid])]
      exact h
  · exact ⟨r, by simpa [processItem, h1] using h, Nat.le_refl _⟩

/-- Reconciling any result list never lowers the stored `last_updated` of
any id. -/
lemma runItems_mono (now : Nat) (id : String) :
    ∀ (fds : List FileDetails) (st : Store) (r : ItemRecord),
      st id = some r →
      ∃ r', (runItems now st fds).1 id = some r' ∧
        r.last_updated ≤ r'.last_updated := by
  intro fds
  induction fds with
  | nil => intro st r h; exact ⟨r, h, Nat.le_refl _⟩
  | cons fd fds ih =>
      intro st r h
      obtain ⟨r1, h1, le1⟩ := processItem_mono now (st, []) fd id r h
      obtain ⟨r2, h2, le2⟩ := ih (processItem now (st, []) fd).1 r1 h1
      refine ⟨r2, ?_, Nat.le_trans le1 le2⟩
      rw [runItems_cons]
      exact h2

/-- A successful result leaves its own id with a record whose `last_updated`
is at least the observed value. -/
lemma processItem_self_ge (now : Nat) (acc : Store × List ChangeEvent)
    (fd : FileDetails) (h1 : fd.result = 1) :
    ∃ r, (processItem now acc fd).1 fd.publishedfileid = some r ∧
      modUpdated fd ≤ r.last_updated := by
  cases hst : acc.1 fd.publishedfileid with
  | none =>
      exact ⟨⟨modUpdated fd, modName fd, now⟩,
        by simp [processItem, h1, hst, Store.upsert], Nat.le_refl _⟩
  | some r =>
      by_cases hlt : r.last_updated < modUpdated fd
      · exact ⟨⟨modUpdated fd, modName fd, now⟩,
          by simp [processItem, h1, hst, hlt, Store.upsert], Nat.le_refl _⟩
      · exact ⟨⟨r.last_updated, r.mod_name, now⟩,
          by simp [processItem, h1, hst, hlt, Store.upsert], Nat.le_of_not_lt hlt⟩

/-- After reconciling a result list, every successful result in it is covered:
the stored `last_updated` of its id is at least the observed value. -/
lemma runItems_covered (now : Nat) :
    ∀ (fds : List FileDetails) (st : Store) (fd : FileDetails),
      fd ∈ fds → fd.result = 1 →
      ∃ r, (runItems now st fds).1 fd.publishedfileid = some r ∧
        modUpdated fd ≤ r.last_updated := by
  intro fds
  induction fds with
  | nil => intro st fd h; exact absurd h (List.not_mem_nil _)
  | cons fd0 fds ih =>
      intro st fd hmem h1
      rw [runItems_cons]
      rcases List.mem_cons.mp hmem with he | hm
      · subst he
        obtain ⟨r1, hr1, ge1⟩ := processItem_self_ge now (st, []) fd h1
        obtain ⟨r2, hr2, le2⟩ :=
          runItems_mono now fd.publishedfileid fds _ r1 hr1
        exact ⟨r2, hr2, Nat.le_trans ge1 le2⟩
      · exact ih _ fd hm h1

/-- If the store already covers every successful result of the list, the
reconciler emits no event at all. -/
lemma runItems_no_events (now : Nat) :
    ∀ (fds : List FileDetails) (st : Store),
      (∀ fd ∈ fds, fd.result = 1 →
        ∃ r, st fd.publishedfileid = some r ∧ modUpdated fd ≤ r.last_updated) →
      (runItems now st fds).2 = [] := by
  intro fds
  induction fds with
  | nil => intro st _; rfl
  | cons fd fds ih =>
      intro st h
      rw [runItems_cons]
      have hfdev : (processItem now (st, ([] : List ChangeEvent)) fd).2 = [] := by
        by_cases h1 : fd.result = 1
        · obtain ⟨r, hr, hge⟩ := h fd (List.mem_cons_self _ _) h1
          simp [processItem, h1, hr, Nat.not_lt_of_ge hge]
        · simp [processItem, h1]
      rw [hfdev]
      simp only [List.nil_append]
      apply ih
      intro fd' hm h1'
      obtain ⟨r, hr, hge⟩ := h fd' (List.mem_cons_of_mem _ hm) h1'
      obtain ⟨r', hr', le'⟩ :=
        processItem_mono now (st, []) fd fd'.publishedfileid r hr
      exact ⟨r', hr', Nat.le_trans hge le'⟩

/-! Decomposition of a full cycle into the flat reconciliation of the
successful batches plus the sleep and request counts. -/

/-- Unfolding the batch loop: the cycle reconciles the concatenation of the
successful batch responses, sleeps once per successful batch, and issues one
request per batch. -/
lemma foldl_batches (lookup : Lookup) (now : Nat) :
    ∀ (bs : List (List String)) (st : Store) (evs : List ChangeEvent)
      (s q : Nat),
      bs.foldl (processBatch lookup now) ⟨st, evs, s, q⟩ =
        ⟨(runItems now st ((bs.filterMap lookup).flatten)).1,
         evs ++ (runItems now st ((bs.filterMap lookup).flatten)).2,
         s + (bs.filterMap lookup).length,
         q + bs.length⟩ := by
  intro bs
  induction bs with
  | nil => intro st evs s q; simp [runItems]
  | cons b bs ih =>
      intro st evs s q
      rw [List.foldl_cons]
      cases hb : lookup b with
      | none =>
          have hstep : processBatch lookup now ⟨st, evs, s, q⟩ b =
              ⟨st, evs, s, q + 1⟩ := by
            simp [processBatch, hb]
          rw [hstep, ih]
          simp only [List.filterMap_cons, hb, List.length_cons]
          congr 1
          omega
      | some fds =>
          have hstep : processBatch lookup now ⟨st, evs, s, q⟩ b =
              ⟨(runItems now st fds).1, evs ++ (runItems now st fds).2,
               s + 1, q + 1⟩ := by
            simp only [processBatch, hb]
            rw [runItems_shift]
          rw [hstep, ih]
          simp only [List.filterMap_cons, hb, List.flatten_cons,
            List.length_cons, runItems_append]
          congr 1
          · simp [List.append_assoc]
          · omega
          · omega

/-- One cycle, in closed form: its store and events are the flat
reconciliation of the successful results, its sleep count is the number of
successful batches, and its request count is the number of batches. -/
lemma check_for_updates_eq (lookup : Lookup) (mod_ids : List String)
    (now : Nat) (st : Store) :
    check_for_updates lookup mod_ids now st =
      ⟨(runItems now st (successResults lookup mod_ids)).1,
       (runItems now st (successResults lookup mod_ids)).2,
       ((makeBatches mod_ids).filterMap lookup).length,
       (makeBatches mod_ids).length⟩ := by
  unfold check_for_updates successResults
  rw [foldl_batches]
  simp

/-! Properties of the batch slicing. -/

/-- Every slice produced by `chunksFuel` has at most `bs` elements. -/
lemma chunksFuel_sizes (bs : Nat) :
    ∀ (fuel : Nat) (l : List α) (b : List α),
      b ∈ chunksFuel bs fuel l → b.length ≤ bs := by
  intro fuel
  induction fuel with
  | zero => intro l b h; simp [chunksFuel] at h
  | succ fuel ih =>
      intro l b h
      cases l with
      | nil => simp [chunksFuel] at h
      | cons a l =>
          simp only [chunksFuel] at h
          rcases List.mem_cons.mp h with he | hm
          · subst he
            rw [List.length_take]
            exact min_le_left _ _
          · exact ih _ b hm

/-- With enough fuel, concatenating the slices gives back the input. -/
lemma chunksFuel_flatten (bs : Nat) (hbs : 0 < bs) :
    ∀ (fuel : Nat) (l : List α), l.length ≤ fuel →
      (chunksFuel bs fuel l).flatten = l := by
  intro fuel
  induction fuel with
  | zero =>
      intro l h
      have h0 : l = [] := List.length_eq_zero.mp (Nat.le_zero.mp h)
      subst h0
      rfl
  | succ fuel ih =>
      intro l h
      cases l with
      | nil => rfl
      | cons a l =>
          simp only [chunksFuel, List.flatten_cons]
          rw [ih]
          · exact List.take_append_drop bs (a :: l)
          · rw [List.length_drop, List.length_cons]
            rw [List.length_cons] at h
            omega

/-- Batches have at most 100 ids each. -/
lemma makeBatches_sizes (l : List α) : ∀ b ∈ makeBatches l, b.length ≤ 100 :=
  fun b hb => chunksFuel_sizes 100 l.length l b hb

/-- The batch split is lossless and order preserving. -/
lemma makeBatches_flatten (l : List α) : (makeBatches l).flatten = l :=
  chunksFuel_flatten 100 (by omega) l.length l (Nat.le_refl _)

/-- The record produced for an id that is successfully observed always has
the cycle timestamp as `last_checked`, whatever branch was taken. -/
lemma itemOutcome_checked (now : Nat) (cur : Option ItemRecord)
    (fd : FileDetails) :
    ∃ r, (itemOutcome now cur fd).1 = some r ∧ r.last_checked = now := by
  cases cur with
  | none => exact ⟨_, rfl, rfl⟩
  | some r =>
      by_cases hlt : r.last_updated < modUpdated fd
      · exact ⟨⟨modUpdated fd, modName fd, now⟩, by simp [itemOutcome, hlt], rfl⟩
      · exact ⟨⟨r.last_updated, r.mod_name, now⟩, by simp [itemOutcome, hlt], rfl⟩

/-- C1: for every id processed in a cycle whose lookup succeeded (it occurs
exactly once among the cycle's successful results) and that has a prior
record with stored `last_updated` strictly less than the observed
`last_updated`, the reconciler emits exactly one ChangeEvent for that id,
carrying the observed values and the detail URL derived from the id, and
overwrites the record's `last_updated`, `display_name` and `last_checked`
with the observed values and the cycle timestamp. -/
theorem spec_C1_changed_id_one_event_and_overwrite
    (lookup : Lookup) (mod_ids : List String) (now : Nat) (st : Store)
    (id : String) (r : ItemRecord) (pre post : List FileDetails)
    (fd0 : FileDetails)
    (hsplit : successResults lookup mod_ids = pre ++ fd0 :: post)
    (hhit : hitsId id fd0 = true)
    (hpre : ∀ fd ∈ pre, hitsId id fd = false)
    (hpost : ∀ fd ∈ post, hitsId id fd = false)
    (hrec : st id = some r)
    (hlt : r.last_updated < modUpdated fd0) :
    (check_for_updates lookup mod_ids now st).events.filter
        (fun e => e.id == id) =
      [⟨id, modName fd0, modUpdated fd0, detailUrl id⟩] ∧
    (check_for_updates lookup mod_ids now st).store id =
      some ⟨modUpdated fd0, modName fd0, now⟩ := by
  have hpid : fd0.publishedfileid = id := by
    have h' : fd0.result = 1 ∧ fd0.publishedfileid = id := by
      simpa [hitsId] using hhit
    exact h'.2
  rw [check_for_updates_eq]
  dsimp only
  constructor
  · rw [hsplit, runItems_unique_events now st id pre post fd0 hhit hpre hpost,
      hrec]
    simp [itemOutcome, hlt, hpid]
  · rw [hsplit, runItems_unique_store now st id pre post fd0 hhit hpre hpost,
      hrec]
    simp [itemOutcome, hlt]

/-- Witness for C1 at a concrete cycle: stored timestamp 5, observed 9. -/
theorem spec_C1_witness :
    (check_for_updates (fun _ => some [⟨1, "a", some "NewName", some 9⟩])
        ["a"] 7 (fun k => if k = "a" then some ⟨5, "old", 1⟩ else none)).events.filter
        (fun e => e.id == "a") = [⟨"a", "NewName", 9, detailUrl "a"⟩] ∧
    (check_for_updates (fun _ => some [⟨1, "a", some "NewName", some 9⟩])
        ["a"] 7 (fun k => if k = "a" then some ⟨5, "old", 1⟩ else none)).store "a" =
      some ⟨9, "NewName", 7⟩ := by
  have h := spec_C1_changed_id_one_event_and_overwrite
    (fun _ => some [⟨1, "a", some "NewName", some 9⟩]) ["a"] 7
    (fun k => if k = "a" then some ⟨5, "old", 1⟩ else none) "a" ⟨5, "old", 1⟩
    [] [] ⟨1, "a", some "NewName", some 9⟩ (by decide) (by decide)
    (by simp) (by simp) (by decide) (by decide)
  simpa [modName, modUpdated] using h

/-- C2: for every id processed in a cycle whose lookup succeeded (exactly one
successful observation) and that has no prior record, after the cycle a record
exists with the observed `last_updated`, the observed `display_name` and the
cycle timestamp as `last_checked`, and no ChangeEvent is emitted for it. -/
theorem spec_C2_new_id_record_created_no_event
    (lookup : Lookup) (mod_ids : List String) (now : Nat) (st : Store)
    (id : String) (pre post : List FileDetails) (fd0 : FileDetails)
    (hsplit : successResults lookup mod_ids = pre ++ fd0 :: post)
    (hhit : hitsId id fd0 = true)
    (hpre : ∀ fd ∈ pre, hitsId id fd = false)
    (hpost : ∀ fd ∈ post, hitsId id fd = false)
    (hrec : st id = none) :
    (check_for_updates lookup mod_ids now st).store id =
      some ⟨modUpdated fd0, modName fd0, now⟩ ∧
    (check_for_updates lookup mod_ids now st).events.filter
        (fun e => e.id == id) = [] := by
  rw [check_for_updates_eq]
  dsimp only
  constructor
  · rw [hsplit, runItems_unique_store now st id pre post fd0 hhit hpre hpost,
      hrec]
    simp [itemOutcome]
  · rw [hsplit, runItems_unique_events now st id pre post fd0 hhit hpre hpost,
      hrec]
    simp [itemOutcome]

/-- Witness for C2 at a concrete cycle: no prior record, observed 9. -/
theorem spec_C2_witness :
    (check_for_updates (fun _ => some [⟨1, "a", some "NewName", some 9⟩])
        ["a"] 7 (fun _ => none)).store "a" = some ⟨9, "NewName", 7⟩ ∧
    (check_for_updates (fun _ => some [⟨1, "a", some "NewName", some 9⟩])
        ["a"] 7 (fun _ => none)).events.filter (fun e => e.id == "a") = [] := by
  have h := spec_C2_new_id_record_created_no_event
    (fun _ => some [⟨1, "a", some "NewName", some 9⟩]) ["a"] 7 (fun _ => none)
    "a" [] [] ⟨1, "a", some "NewName", some 9⟩ (by decide) (by decide)
    (by simp) (by simp) rfl
  simpa [modName, modUpdated] using h

/-- C3: for every id processed in a cycle whose lookup succeeded (exactly one
successful observation) with observed `last_updated` at most the stored
value, no ChangeEvent is emitted for it, `last_updated` and `display_name`
are unchanged, and only `last_checked` advances to the cycle timestamp. -/
theorem spec_C3_unchanged_id_touch_only
    (lookup : Lookup) (mod_ids : List String) (now : Nat) (st : Store)
    (id : String) (r : ItemRecord) (pre post : List FileDetails)
    (fd0 : FileDetails)
    (hsplit : successResults lookup mod_ids = pre ++ fd0 :: post)
    (hhit : hitsId id fd0 = true)
    (hpre : ∀ fd ∈ pre, hitsId id fd = false)
    (hpost : ∀ fd ∈ post, hitsId id fd = false)
    (hrec : st id = some r)
    (hle : modUpdated fd0 ≤ r.last_updated) :
    (check_for_updates lookup mod_ids now st).events.filter
        (fun e => e.id == id) = [] ∧
    (check_for_updates lookup mod_ids now st).store id =
      some ⟨r.last_updated, r.mod_name, now⟩ := by
  rw [check_for_updates_eq]
  dsimp only
  constructor
  · rw [hsplit, runItems_unique_events now st id pre post fd0 hhit hpre hpost,
      hrec]
    simp [itemOutcome, Nat.not_lt_of_ge hle]
  · rw [hsplit, runItems_unique_store now st id pre post fd0 hhit hpre hpost,
      hrec]
    simp [itemOutcome, Nat.not_lt_of_ge hle]

/-- Witness for C3 at a concrete cycle: stored timestamp 9, observed 9. -/
theorem spec_C3_witness :
    (check_for_updates (fun _ => some [⟨1, "a", some "NewName", some 9⟩])
        ["a"] 7 (fun k => if k = "a" then some ⟨9, "old", 1⟩ else none)).events.filter
        (fun e => e.id == "a") = [] ∧
    (check_for_updates (fun _ => some [⟨1, "a", some "NewName", some 9⟩])
        ["a"] 7 (fun k => if k = "a" then some ⟨9, "old", 1⟩ else none)).store "a" =
      some ⟨9, "old", 7⟩ := by
  have h := spec_C3_unchanged_id_touch_only
    (fun _ => some [⟨1, "a", some "NewName", some 9⟩]) ["a"] 7
    (fun k => if k = "a" then some ⟨9, "old", 1⟩ else none) "a" ⟨9, "old", 1⟩
    [] [] ⟨1, "a", some "NewName", some 9⟩ (by decide) (by decide)
    (by simp) (by simp) (by decide) (by decide)
  simpa using h

/-- C4: an id absent from a cycle's successful results (its batch failed) has
its record, if any, left entirely unchanged and gets no ChangeEvent, while an
id that does appear (exactly once) in a successful batch of the same cycle is
still reconciled: after the cycle it has a record stamped with the cycle
timestamp. -/
theorem spec_C4_failed_batch_isolation :
    (∀ (lookup : Lookup) (mod_ids : List String) (now : Nat) (st : Store)
       (id : String),
      (∀ fd ∈ successResults lookup mod_ids, hitsId id fd = false) →
      (check_for_updates lookup mod_ids now st).store id = st id ∧
      (check_for_updates lookup mod_ids now st).events.filter
          (fun e => e.id == id) = []) ∧
    (∀ (lookup : Lookup) (mod_ids : List String) (now : Nat) (st : Store)
       (id : String) (pre post : List FileDetails) (fd0 : FileDetails),
      successResults lookup mod_ids = pre ++ fd0 :: post →
      hitsId id fd0 = true →
      (∀ fd ∈ pre, hitsId id fd = false) →
      (∀ fd ∈ post, hitsId id fd = false) →
      ∃ r, (check_for_updates lookup mod_ids now st).store id = some r ∧
        r.last_checked = now) := by
  constructor
  · intro lookup mod_ids now st id h
    rw [check_for_updates_eq]
    exact ⟨runItems_store_frame now id _ st h,
      runItems_events_frame now id _ st h⟩
  · intro lookup mod_ids now st id pre post fd0 hsplit hhit hpre hpost
    rw [check_for_updates_eq]
    dsimp only
    rw [hsplit, runItems_unique_store now st id pre post fd0 hhit hpre hpost]
    exact itemOutcome_checked now (st id) fd0

/-- Witness for C4: two batches (101 ids), the second batch fails; the id of
the failed batch keeps its record bit for bit, the id of the successful batch
is stamped with the cycle timestamp. -/
theorem spec_C4_witness :
    ((check_for_updates
        (fun b => if b = ["b"] then none
                  else some [⟨1, "a", some "N", some 9⟩])
        (List.replicate 100 "a" ++ ["b"]) 7
        (fun k => if k = "b" then some ⟨3, "old", 2⟩ else none)).store "b" =
      (fun k => if k = "b" then some ⟨3, "old", 2⟩ else none) "b" ∧
     (check_for_updates
        (fun b => if b = ["b"] then none
                  else some [⟨1, "a", some "N", some 9⟩])
        (List.replicate 100 "a" ++ ["b"]) 7
        (fun k => if k = "b" then some ⟨3, "old", 2⟩ else none)).events.filter
        (fun e => e.id == "b") = []) ∧
    ∃ r, (check_for_updates
        (fun b => if b = ["b"] then none
                  else some [⟨1, "a", some "N", some 9⟩])
        (List.replicate 100 "a" ++ ["b"]) 7
        (fun k => if k = "b" then some ⟨3, "old", 2⟩ else none)).store "a" =
      some r ∧ r.last_checked = 7 := by
  constructor
  · exact spec_C4_failed_batch_isolation.1
      (fun b => if b = ["b"] then none else some [⟨1, "a", some "N", some 9⟩])
      (List.replicate 100 "a" ++ ["b"]) 7
      (fun k => if k = "b" then some ⟨3, "old", 2⟩ else none) "b" (by decide)
  · exact spec_C4_failed_batch_isolation.2
      (fun b => if b = ["b"] then none else some [⟨1, "a", some "N", some 9⟩])
      (List.replicate 100 "a" ++ ["b"]) 7
      (fun k => if k = "b" then some ⟨3, "old", 2⟩ else none) "a"
      [] [] ⟨1, "a", some "N", some 9⟩ (by decide) (by decide)
      (by simp) (by simp)

/-- C5: running two reconciliation cycles back to back over the same stored
state with identical catalog responses yields an empty ChangeEvent list on
the second cycle, for every starting state and every response set. -/
theorem spec_C5_second_cycle_empty (lookup : Lookup) (mod_ids : List String)
    (now1 now2 : Nat) (st : Store) :
    (check_for_updates lookup mod_ids now2
        (check_for_updates lookup mod_ids now1 st).store).events = [] := by
  rw [check_for_updates_eq, check_for_updates_eq]
  dsimp only
  apply runItems_no_events
  intro fd hm h1
  exact runItems_covered now1 (successResults lookup mod_ids) st fd hm h1

set_option maxRecDepth 4000 in
/-- C6: the catalog client partitions the tracked ids into batches of at most
100, issues exactly one lookup request per batch, and for 150 tracked ids
issues exactly 2 requests of sizes 100 and 50 in that order. -/
theorem spec_C6_batch_partitioning :
    (∀ (mod_ids : List String), ∀ b ∈ makeBatches mod_ids, b.length ≤ 100) ∧
    (∀ (lookup : Lookup) (mod_ids : List String) (now : Nat) (st : Store),
      (check_for_updates lookup mod_ids now st).requests =
        (makeBatches mod_ids).length) ∧
    (makeBatches (List.replicate 150 "m")).map List.length = [100, 50] := by
  refine ⟨fun mod_ids => makeBatches_sizes mod_ids,
    fun lookup mod_ids now st => ?_, ?_⟩
  · rw [check_for_updates_eq]
  · decide

set_option maxRecDepth 4000 in
/-- Witness for C6: the first batch of a 150-id input has at most 100 ids. -/
theorem spec_C6_witness : (List.replicate 100 "m").length ≤ 100 :=
  spec_C6_batch_partitioning.1 (List.replicate 150 "m")
    (List.replicate 100 "m") (by decide)

/-- C8 as stated is false: when a batch lookup fails, the `continue` at the
top of the loop body skips the `time.sleep(1)` at its end, so the delay is
not observed after every batch lookup. Concretely, one batch whose lookup
fails gives one request but zero sleeps. -/
theorem spec_C8_counterexample :
    ¬ (∀ (lookup : Lookup) (mod_ids : List String) (now : Nat) (st : Store),
        (check_for_updates lookup mod_ids now st).sleeps =
          (makeBatches mod_ids).length) := by
  intro h
  exact absurd (h (fun _ => none) ["a"] 0 (fun _ => none)) (by decide)

/-- C8 amended: the inter-batch delay is observed after every batch whose
lookup succeeded; a batch whose lookup failed is skipped without the delay. -/
theorem spec_C8_sleep_per_successful_batch (lookup : Lookup)
    (mod_ids : List String) (now : Nat) (st : Store) :
    (check_for_updates lookup mod_ids now st).sleeps =
      ((makeBatches mod_ids).filterMap lookup).length := by
  rw [check_for_updates_eq]

/-- C9: no cycle ever replaces a stored `last_updated` with a strictly
smaller value: every id with a record still has one after the cycle, with
`last_updated` at least the old value (a regression reported by the remote
service is treated as no change, never rolled back). -/
theorem spec_C9_last_updated_monotone (lookup : Lookup)
    (mod_ids : List String) (now : Nat) (st : Store) (id : String)
    (r : ItemRecord) (h : st id = some r) :
    ∃ r', (check_for_updates lookup mod_ids now st).store id = some r' ∧
      r.last_updated ≤ r'.last_updated := by
  rw [check_for_updates_eq]
  exact runItems_mono now id (successResults lookup mod_ids) st r h

/-- Witness for C9: the remote reports a regression (3 < stored 9); the
record keeps `last_updated = 9`. -/
theorem spec_C9_witness :
    ∃ r', (check_for_updates (fun _ => some [⟨1, "a", some "N", some 3⟩])
        ["a"] 7 (fun k => if k = "a" then some ⟨9, "old", 1⟩ else none)).store
        "a" = some r' ∧
      (ItemRecord.mk 9 "old" 1).last_updated ≤ r'.last_updated :=
  spec_C9_last_updated_monotone (fun _ => some [⟨1, "a", some "N", some 3⟩])
    ["a"] 7 (fun k => if k = "a" then some ⟨9, "old", 1⟩ else none) "a"
    ⟨9, "old", 1⟩ (by decide)

/-- C10: the batch split is lossless and order preserving: concatenating the
produced batches in order yields exactly the original id sequence. -/
theorem spec_C10_batches_lossless_order_preserving (α : Type)
    (mod_ids : List α) : (makeBatches mod_ids).flatten = mod_ids :=
  makeBatches_flatten mod_ids

/-! Notifier lemmas. -/

/-- Every per-mod field is an inline field. -/
lemma filter_inl_map_modField (l : List ChangeEvent) :
    (l.map modField).filter (fun f => f.inl) = l.map modField := by
  induction l with
  | nil => rfl
  | cons m l ih => simp [modField, ih]

/-- No per-mod field is a non-inline field. -/
lemma filter_not_inl_map_modField (l : List ChangeEvent) :
    (l.map modField).filter (fun f => !f.inl) = [] := by
  induction l with
  | nil => rfl
  | cons m l ih => simp [modField, ih]

/-- C7: with 0 ChangeEvents no message is sent; with n ≥ 1 exactly one
message is sent, whose single embed has exactly `min n 10` inline per-item
entries, and whose non-inline entries apart from the fixed trailing advisory
are exactly one `N more` summary when n > 10 and none otherwise. -/
theorem spec_C7_notification_capping (now : Nat)
    (updated_mods : List ChangeEvent) :
    (updated_mods = [] → send_discord_notification now updated_mods = none) ∧
    (updated_mods ≠ [] →
      ∃ e : DiscordEmbed,
        send_discord_notification now updated_mods =
          some ⟨[e], "@here Mod updates detected for DayZ server!"⟩ ∧
        (e.fields.filter (fun f => f.inl)).length = min updated_mods.length 10 ∧
        e.fields.dropLast.filter (fun f => !f.inl) =
          (if 10 < updated_mods.length then
            [additionalField (updated_mods.length - 10)] else [])) := by
  constructor
  · intro h
    subst h
    rfl
  · intro h
    refine ⟨⟨"🔄 DayZ Server Mod Updates Detected!",
      "**" ++ toString updated_mods.length ++ " mod(s) have been updated**",
      0x00ff00, now, "GTX Gaming DayZ Server Monitor",
      buildFields updated_mods⟩, ?_, ?_, ?_⟩
    · simp [send_discord_notification, h]
    · show ((buildFields updated_mods).filter (fun f => f.inl)).length = _
      unfold buildFields
      simp only [List.filter_append]
      rw [filter_inl_map_modField]
      have h2 : (if 10 < updated_mods.length then
          [additionalField (updated_mods.length - 10)] else []).filter
          (fun f => f.inl) = [] := by
        split <;> simp [additionalField]
      rw [h2]
      have h3 : ([warningField].filter (fun f => f.inl)) = [] := by
        simp [warningField]
      rw [h3]
      simp only [List.append_nil, List.length_map, List.length_take]
      exact Nat.min_comm 10 _
    · show (buildFields updated_mods).dropLast.filter (fun f => !f.inl) = _
      unfold buildFields
      rw [List.dropLast_concat, List.filter_append,
        filter_not_inl_map_modField]
      simp only [List.nil_append]
      split <;> simp [additionalField]

/-- Witness for C7: 15 events give one message with 10 inline entries and a
single `5 more` summary entry. -/
theorem spec_C7_witness :
    ∃ e : DiscordEmbed,
      send_discord_notification 0
          ((List.range 15).map (fun i => ChangeEvent.mk (toString i) "m" 0 "")) =
        some ⟨[e], "@here Mod updates detected for DayZ server!"⟩ ∧
      (e.fields.filter (fun f => f.inl)).length = 10 ∧
      e.fields.dropLast.filter (fun f => !f.inl) = [additionalField 5] := by
  have h := (spec_C7_notification_capping 0
    ((List.range 15).map (fun i => ChangeEvent.mk (toString i) "m" 0 ""))).2
    (by decide)
  simpa using h
